import Mathlib

/-!
Verification of the RELAY-APC GSM gate-opener application.

This file shallowly embeds the core of the repository — the SMS command
codec (classification / human-readable description of command strings),
the local data store (devices, users, per-device logs, global settings)
and the JSON backup/restore pipeline — as executable Lean definitions,
and proves the specification claims about them.

Modelling conventions:
* JS strings are Lean `String`s; most string work happens on `List Char`.
* JS `AsyncStorage` is a pure association list from keys to parsed JSON
  values; mutating methods become state-passing functions.
* Impure fragments (UUID generation, timestamps) are passed in as
  explicit arguments.
* JS regular-expression operations are embedded as direct scanning
  functions implementing exactly the semantics of the concrete patterns
  used by the source (leftmost match, greedy character classes).
-/

namespace RelayAPC

/-- JS `\d` (ASCII decimal digit), as used by the `\d` and `\D` classes. -/
def isDigitC (c : Char) : Bool := '0' ≤ c && c ≤ '9'

/-- Does `hay` start with `needle`? (helper for substring search). -/
def startsWithL : List Char → List Char → Bool
  | [], _ => true
  | _ :: _, [] => false
  | a :: n, b :: h => a == b && startsWithL n h

/-- JS `String.prototype.includes`: is `needle` a contiguous substring of
`hay`?  Scans left to right. -/
def containsL (needle : List Char) : List Char → Bool
  | [] => needle.isEmpty
  | c :: rest => startsWithL needle (c :: rest) || containsL needle rest

/-- `src/unnamed/part_006`, `registerAdminNumber` (lines 323–337):
`adminNumber.replace(/\D/g, '')`, then
`if (f.startsWith('0')) f = f.substring(1)`, then
`if (!f.startsWith('00')) f = '00' + f`. -/
def formatAdminNumberPart006 (adminNumber : String) : String :=
  let f := adminNumber.toList.filter (fun c => isDigitC c)
  let f := if startsWithL ['0'] f then f.drop 1 else f
  let f := if !(startsWithL ['0', '0'] f) then '0' :: '0' :: f else f
  String.mk f

/-- `src/app/setup.tsx`, `registerAdminNumber` (lines 166–172):
`adminNumber.replace(/\D/g, '')`, then
`if (f.startsWith('0') && !f.startsWith('00')) f = '00' + f.substring(1);
else if (!f.startsWith('00')) f = '00' + f`. -/
def formatAdminNumberSetup (adminNumber : String) : String :=
  let f := adminNumber.toList.filter (fun c => isDigitC c)
  let f :=
    if startsWithL ['0'] f && !(startsWithL ['0', '0'] f) then
      '0' :: '0' :: f.drop 1
    else if !(startsWithL ['0', '0'] f) then
      '0' :: '0' :: f
    else f
  String.mk f

/-! ## Data model (`src/utils/DataStore.ts`, interfaces lines 13–68) -/

/-- `LogEntry.category` / `Device.relaySettings.accessControl` enums. -/
inductive Category
  | relay
  | settings
  | user
  | system
deriving DecidableEq, Repr

inductive AccessControl
  | AUT
  | ALL
deriving DecidableEq, Repr

/-- `LogEntry` of `DataStore.ts` (per-device log buckets). -/
structure DSLogEntry where
  id : String
  timestamp : String
  action : String
  details : String
  success : Bool
  category : Category
deriving DecidableEq, Repr

structure RelaySettings where
  accessControl : AccessControl
  latchTime : String
deriving DecidableEq, Repr

/-- `Device` of `DataStore.ts`; `authorizedUsers` holds User-id references. -/
structure Device where
  id : String
  name : String
  unitNumber : String
  password : String
  authorizedUsers : List String
  createdAt : String
  updatedAt : String
  relaySettings : Option RelaySettings
deriving DecidableEq, Repr

structure User where
  id : String
  name : String
  phoneNumber : String
  serialNumber : String
  startTime : Option String
  endTime : Option String
deriving DecidableEq, Repr

structure GlobalSettings where
  adminNumber : String
  activeDeviceId : Option String
  completedSteps : List String
deriving DecidableEq, Repr

/-- `AppData`: the aggregate store document.  The JS `logs` record
(`{deviceId: LogEntry[]}`) is an association list with unique keys. -/
structure AppData where
  devices : List Device
  users : List User
  logs : List (String × List DSLogEntry)
  globalSettings : GlobalSettings
deriving DecidableEq, Repr

/-- `initialState` of `DataStore.ts` (lines 59–68). -/
def initialState : AppData :=
  { devices := []
    users := []
    logs := []
    globalSettings :=
      { adminNumber := "", activeDeviceId := none, completedSteps := [] } }

/-! Association-list operations modelling JS object property access. -/

/-- JS `obj[k]` (reads the property; `none` = `undefined`). -/
def lookupA {α : Type} (k : String) : List (String × α) → Option α
  | [] => none
  | (k', v) :: rest => if k' = k then some v else lookupA k rest

/-- JS `obj[k] = v` (overwrites an existing property in place, appends a
new one; object keys are unique, so only the first occurrence matters). -/
def setA {α : Type} (k : String) (v : α) : List (String × α) → List (String × α)
  | [] => [(k, v)]
  | (k', v') :: rest => if k' = k then (k, v) :: rest else (k', v') :: setA k v rest

/-- JS `delete obj[k]`. -/
def removeA {α : Type} (k : String) (l : List (String × α)) : List (String × α) :=
  l.filter (fun p => p.1 ≠ k)

/-- JS `String.prototype.trim` (strips leading/trailing whitespace). -/
def jsStrTrim (s : String) : String :=
  let isWS := fun c => c = ' ' || c = '\t' || c = '\n' || c = '\r'
  String.mk (((s.toList.dropWhile isWS).reverse.dropWhile isWS).reverse)

/-! ## `DataStore` operations, as pure state transformations.
The `async` persistence (`saveStore`) writes the whole in-memory
document; the embedding works on that in-memory document directly.
`console.log`/`console.error` calls are dropped. -/

/-- `DataStore.deleteDevice` (lines 237–296).  Guard: JS rejects a falsy
(`""`) or literally-`'undefined'` id before looking anything up.
Deleting the log bucket models `delete this.store.logs[deviceId]` (the
JS presence check before the `delete` is a no-op for absent keys). -/
def deleteDevice (deviceId : String) (s : AppData) : AppData × Bool :=
  if deviceId = "" ∨ deviceId = "undefined" then (s, false)
  else
    match s.devices.find? (fun d => d.id == deviceId) with
    | none => (s, false)
    | some _ =>
      let initialLength := s.devices.length
      let devices' := s.devices.filter (fun d => d.id != deviceId)
      let logs' := removeA deviceId s.logs
      let gs := s.globalSettings
      let gs :=
        if gs.activeDeviceId = some deviceId then
          -- clear, then re-point to the first remaining device if any
          match devices'.head? with
          | some d0 => { gs with activeDeviceId := some d0.id }
          | none => { gs with activeDeviceId := none }
        else gs
      ({ s with devices := devices', logs := logs', globalSettings := gs },
        decide (initialLength ≠ devices'.length))

/-- `DataStore.setActiveDevice` (lines 299–307).  The JS guard
`if (deviceId && !devices.some(...)) return false` skips the existence
check for falsy ids (`null` and the empty string). -/
def setActiveDevice (deviceId : Option String) (s : AppData) : AppData × Bool :=
  let truthy : Bool := match deviceId with | some id => id != "" | none => false
  if truthy && !(s.devices.any (fun d => some d.id == deviceId)) then (s, false)
  else
    ({ s with globalSettings := { s.globalSettings with activeDeviceId := deviceId } },
      true)

/-- `DataStore.deleteUser` (lines 354–368): filter the global user list,
then scrub the id from every device's `authorizedUsers`; report whether
a user was actually removed. -/
def deleteUser (userId : String) (s : AppData) : AppData × Bool :=
  let initialLength := s.users.length
  let users' := s.users.filter (fun u => u.id != userId)
  let devices' := s.devices.map
    (fun d => { d with authorizedUsers := d.authorizedUsers.filter (fun i => i != userId) })
  ({ s with users := users', devices := devices' },
    decide (initialLength ≠ users'.length))

/-- JS `find`/`findIndex` followed by in-place mutation touches only the
first array element matching the predicate. -/
def updateFirstDevice (p : Device → Bool) (f : Device → Device) : List Device → List Device
  | [] => []
  | d :: rest => if p d then f d :: rest else d :: updateFirstDevice p f rest

/-- `DataStore.authorizeUserForDevice` (lines 373–383): push the user id
onto the found device's `authorizedUsers` unless already present. -/
def authorizeUserForDevice (deviceId userId : String) (s : AppData) : AppData × Bool :=
  match s.devices.find? (fun d => d.id == deviceId) with
  | none => (s, false)
  | some device =>
    if userId ∈ device.authorizedUsers then (s, false)
    else
      let devices' := updateFirstDevice (fun d => d.id == deviceId)
        (fun d => { d with authorizedUsers := d.authorizedUsers ++ [userId] })
        s.devices
      ({ s with devices := devices' }, true)

/-- `DataStore.deauthorizeUserForDevice` (lines 386–400): filter the
found device's `authorizedUsers` in place; report whether the length
changed. -/
def deauthorizeUserForDevice (deviceId userId : String) (s : AppData) : AppData × Bool :=
  match s.devices.find? (fun d => d.id == deviceId) with
  | none => (s, false)
  | some device =>
    let initialLength := device.authorizedUsers.length
    let newAuthorized := device.authorizedUsers.filter (fun i => i != userId)
    let devices' := updateFirstDevice (fun d => d.id == deviceId)
      (fun d => { d with authorizedUsers := d.authorizedUsers.filter (fun i => i != userId) })
      s.devices
    let s' := { s with devices := devices' }
    if initialLength ≠ newAuthorized.length then (s', true) else (s', false)

/-- The impure inputs of a `DataStore.addDeviceLog` call: the generated
UUID and timestamp, plus the caller-supplied fields. -/
structure LogCall where
  id : String
  timestamp : String
  action : String
  details : String
  success : Bool
  category : Category
deriving DecidableEq, Repr

def mkLogEntry (c : LogCall) : DSLogEntry :=
  { id := c.id, timestamp := c.timestamp, action := c.action,
    details := c.details, success := c.success, category := c.category }

/-- `DataStore.addDeviceLog` (lines 405–435).  An id that is empty or
whitespace-only (JS `!deviceId || !deviceId.trim()`) is redirected to
the reserved `"system"` bucket; the new entry is prepended and the
bucket truncated via `[newLog, ...logs[deviceId].slice(0, 199)]`. -/
def addDeviceLog (deviceId : String) (c : LogCall) (s : AppData) : AppData × DSLogEntry :=
  let deviceId := if jsStrTrim deviceId = "" then "system" else deviceId
  let bucket := (lookupA deviceId s.logs).getD []
  let newLog := mkLogEntry c
  ({ s with logs := setA deviceId (newLog :: bucket.take 199) s.logs }, newLog)

/-- A sequence of `addDeviceLog` calls against one device. -/
def foldAddDeviceLog (deviceId : String) (calls : List LogCall) (s : AppData) : AppData :=
  calls.foldl (fun st c => (addDeviceLog deviceId c st).1) s

/-- The log bucket of a device (empty when absent). -/
def bucketOf (deviceId : String) (s : AppData) : List DSLogEntry :=
  (lookupA deviceId s.logs).getD []

/-- `LogEntry` of `src/utils/LogManager.ts` (lines 5–13). -/
structure LMLogEntry where
  id : String
  timestamp : String
  action : String
  details : String
  success : Bool
  deviceId : Option String
  category : Option Category
deriving DecidableEq, Repr

/-- `LogManager.addLog`, device-bucket update (line 74):
`[newLog, ...logs.slice(0, 199)]` — keep max 200 logs. -/
def lmDeviceLogsUpdate (newLog : LMLogEntry) (logs : List LMLogEntry) : List LMLogEntry :=
  newLog :: logs.take 199

/-- `LogManager.addLog`, system-wide buffer update (line 84):
`[newLog, ...systemLogs.slice(0, 99)]` — keep max 100 logs. -/
def lmSystemLogsUpdate (newLog : LMLogEntry) (systemLogs : List LMLogEntry) : List LMLogEntry :=
  newLog :: systemLogs.take 99

/-! ## SMS command codec

Encoders come from the UI screens that build command strings; the
classifier/describer is `LogManager.logSMSOperation`
(`src/utils/LogManager.ts`, lines 100–167). -/

/-- Take exactly `n` leading digits (the deterministic `\d{n}` part of
the source regexes), returning them and the rest of the input. -/
def parseDigits : Nat → List Char → Option (List Char × List Char)
  | 0, l => some ([], l)
  | _ + 1, [] => none
  | n + 1, c :: rest =>
    if isDigitC c then (parseDigits n rest).map (fun p => (c :: p.1, p.2))
    else none

/-- Match `/\d{4}A(\d{3})##/` at the head of the input (the pattern is
deterministic, so no backtracking arises). -/
def matchRemoveHere (l : List Char) : Option (List Char) :=
  match parseDigits 4 l with
  | none => none
  | some (_, r1) =>
    match r1 with
    | 'A' :: r2 =>
      match parseDigits 3 r2 with
      | none => none
      | some (serial, r3) =>
        match r3 with
        | '#' :: '#' :: _ => some serial
        | _ => none
    | _ => none

/-- JS `command.match(/\d{4}A(\d{3})##/)?.[1]`: leftmost match, capture
the serial. -/
def matchRemove : List Char → Option (List Char)
  | [] => none
  | c :: rest =>
    match matchRemoveHere (c :: rest) with
    | some s => some s
    | none => matchRemove rest

/-- Match `/\d{4}A(\d{3})#([^#]+)#/` at the head of the input: after the
serial and `#`, the greedy `[^#]+` takes the maximal nonempty run of
non-`#` characters, which must be followed by `#` (all shorter
backtracking splits fail since the run contains no `#`). -/
def matchAddHere (l : List Char) : Option (List Char × List Char) :=
  match parseDigits 4 l with
  | none => none
  | some (_, r1) =>
    match r1 with
    | 'A' :: r2 =>
      match parseDigits 3 r2 with
      | none => none
      | some (serial, r3) =>
        match r3 with
        | '#' :: r4 =>
          let phone := r4.takeWhile (fun c => c != '#')
          if phone.isEmpty then none
          else
            match r4.drop phone.length with
            | '#' :: _ => some (serial, phone)
            | _ => none
        | _ => none
    | _ => none

/-- JS `command.match(/\d{4}A(\d{3})#([^#]+)#/)`: leftmost match. -/
def matchAdd : List Char → Option (List Char × List Char)
  | [] => none
  | c :: rest =>
    match matchAddHere (c :: rest) with
    | some s => some s
    | none => matchAdd rest

/-- Match `/\d{4}GOT(\d{3})#/` at the head of the input. -/
def matchGotHere (l : List Char) : Option (List Char) :=
  match parseDigits 4 l with
  | none => none
  | some (_, r1) =>
    match r1 with
    | 'G' :: 'O' :: 'T' :: r2 =>
      match parseDigits 3 r2 with
      | none => none
      | some (seconds, r3) =>
        match r3 with
        | '#' :: _ => some seconds
        | _ => none
    | _ => none

/-- JS `command.match(/\d{4}GOT(\d{3})#/)?.[1]`: leftmost match. -/
def matchGot : List Char → Option (List Char)
  | [] => none
  | c :: rest =>
    match matchGotHere (c :: rest) with
    | some s => some s
    | none => matchGot rest

def isUpperAZ (c : Char) : Bool := 'A' ≤ c && c ≤ 'Z'

/-- One pass of JS `command.replace(/\d{4}([A-Z])/g, '****$1')`:
non-overlapping leftmost matches, continuing after each replacement.
The fuel is the input length (every step consumes at least one
character). -/
def sanitizeScan : Nat → List Char → List Char
  | 0, l => l
  | _ + 1, [] => []
  | fuel + 1, c :: rest =>
    match
      (match parseDigits 4 (c :: rest) with
       | some (_, u :: r5) => if isUpperAZ u then some (u, r5) else none
       | _ => none) with
    | some (u, r5) => '*' :: '*' :: '*' :: '*' :: u :: sanitizeScan fuel r5
    | none => c :: sanitizeScan fuel rest

/-- `sanitizeLogDetails` of `LogManager.ts` (lines 21–27). -/
def sanitizeLogDetails (command : String) : String :=
  String.mk (sanitizeScan command.toList.length command.toList)

/-- JS `parseInt(s, 10)` on the all-digit strings produced by the
`GOT` capture group (and the `'0'` fallback). -/
def jsParseIntDigits (l : List Char) : Nat :=
  (l.takeWhile isDigitC).foldl (fun acc c => acc * 10 + (c.toNat - '0'.toNat)) 0

/-- `LogManager.logSMSOperation` (lines 100–167), the pure
classification part: raw command string to
(action, details, category). -/
def classifySMSCommand (command : String) : String × String × Category :=
  let cmd := command.toList
  if containsL ['C', 'C'] cmd then
    ("Gate Open", "Opened gate/activated relay (ON)", Category.relay)
  else if containsL ['D', 'D'] cmd then
    ("Gate Close", "Closed gate/deactivated relay (OFF)", Category.relay)
  else if containsL ['P'] cmd then
    ("Password Change", "Changed device password", Category.settings)
  else if containsL ['E', 'E'] cmd then
    ("Status Check", "Requested device status", Category.system)
  else if containsL ['T', 'E', 'L'] cmd then
    ("Admin Registration", "Registered admin phone number", Category.settings)
  else if containsL ['A'] cmd
      && !(containsL ['A', 'L', 'L'] cmd) && !(containsL ['A', 'U', 'T'] cmd) then
    if containsL ['#', '#'] cmd then
      let serial := (matchRemove cmd).getD []
      ("User Management",
        "Removed authorized user from position " ++ String.mk serial,
        Category.user)
    else
      match matchAdd cmd with
      | some (serial, phone) =>
        ("User Management",
          "Added user " ++ String.mk phone ++ " at position " ++ String.mk serial,
          Category.user)
      | none => ("User Management", sanitizeLogDetails command, Category.user)
  else if containsL ['A', 'U', 'T'] cmd then
    ("Access Control", "Set to authorized users only", Category.settings)
  else if containsL ['A', 'L', 'L'] cmd then
    ("Access Control", "Set to allow all callers", Category.settings)
  else if containsL ['G', 'O', 'T'] cmd then
    let details :=
      match matchGot cmd with
      | some s =>
        if s = ['0', '0', '0'] then "Set relay to momentary mode (pulse)"
        else if s = ['9', '9', '9'] then
          "Set relay to toggle mode (stays ON until next call)"
        else "Set relay to close for " ++ toString (jsParseIntDigits s) ++ " seconds"
      | none =>
        "Set relay to close for " ++ toString (jsParseIntDigits ['0']) ++ " seconds"
    ("Relay Timing", details, Category.settings)
  else
    ("GSM Command", sanitizeLogDetails command, Category.system)

/-- `src/app/step3.tsx`, `addNewUser` (lines 287–292): the add-user
command string, with the time-restriction suffix appended only when
both times are non-empty (JS truthiness of the form fields). -/
def encodeAddUserCommand (password serialNumber phone startTime endTime : String) :
    String :=
  let command := password ++ "A" ++ serialNumber ++ "#" ++ phone ++ "#"
  if startTime != "" && endTime != "" then
    command ++ startTime ++ "#" ++ endTime ++ "#"
  else command

/-- `src/unnamed/part_004`, `deleteUserById` (line 324):
`` `${password}A${user.serialNumber}##` ``. -/
def encodeDeleteUserCommand (password serialNumber : String) : String :=
  password ++ "A" ++ serialNumber ++ "##"

/-! ## JSON model and parser

`AsyncStorage` values and backup payloads are JSON documents.  Storage
is modelled as an association list from keys to *parsed* JSON values
(the `JSON.stringify`/`JSON.parse` round trip through the string-valued
store is the identity on this representation).  JSON numbers are
modelled as integers: the decimal-fraction/exponent forms (and the
leading-zero rejection of strict JSON) are not modelled; no claim
involves non-integer numbers. -/

inductive JValue where
  | jnull
  | jbool (b : Bool)
  | jnum (n : Int)
  | jstr (s : String)
  | jarr (elems : List JValue)
  | jobj (fields : List (String × JValue))
deriving Repr

/-- JSON interchange whitespace (also what `String.prototype.trim` and
the `\s` class strip in the inputs at hand). -/
def isJsonWs (c : Char) : Bool := c = ' ' || c = '\t' || c = '\n' || c = '\r'

def skipWs (l : List Char) : List Char := l.dropWhile isJsonWs

def parseHexDigit (c : Char) : Option Nat :=
  if '0' ≤ c && c ≤ '9' then some (c.toNat - 48)
  else if 'a' ≤ c && c ≤ 'f' then some (c.toNat - 87)
  else if 'A' ≤ c && c ≤ 'F' then some (c.toNat - 55)
  else none

/-- Parse the body of a JSON string literal after the opening quote,
returning the decoded characters and the input after the closing
quote. -/
def parseStringBody : Nat → List Char → Option (List Char × List Char)
  | 0, _ => none
  | _ + 1, [] => none
  | fuel + 1, c :: rest =>
    if c = '"' then some ([], rest)
    else if c = '\\' then
      match rest with
      | [] => none
      | e :: rest2 =>
        let esc : Option (Char × List Char) :=
          if e = '"' then some ('"', rest2)
          else if e = '\\' then some ('\\', rest2)
          else if e = '/' then some ('/', rest2)
          else if e = 'b' then some ('\x08', rest2)
          else if e = 'f' then some ('\x0c', rest2)
          else if e = 'n' then some ('\n', rest2)
          else if e = 'r' then some ('\r', rest2)
          else if e = 't' then some ('\t', rest2)
          else if e = 'u' then
            match rest2 with
            | h1 :: h2 :: h3 :: h4 :: rest3 =>
              match parseHexDigit h1, parseHexDigit h2, parseHexDigit h3,
                  parseHexDigit h4 with
              | some a, some b, some c', some d =>
                some (Char.ofNat (((a * 16 + b) * 16 + c') * 16 + d), rest3)
              | _, _, _, _ => none
            | _ => none
          else none
        match esc with
        | none => none
        | some (ch, r) => (parseStringBody fuel r).map (fun p => (ch :: p.1, p.2))
    else if c.toNat < 32 then none
    else (parseStringBody fuel rest).map (fun p => (c :: p.1, p.2))

def digitsToNat (l : List Char) : Nat :=
  l.foldl (fun acc c => acc * 10 + (c.toNat - 48)) 0

/-- Parse a JSON number token (integers only, see the module note). -/
def parseNumberToken (l : List Char) : Option (Int × List Char) :=
  match l with
  | '-' :: rest =>
    let ds := rest.takeWhile isDigitC
    if ds.isEmpty then none
    else some (-(Int.ofNat (digitsToNat ds)), rest.drop ds.length)
  | _ =>
    let ds := l.takeWhile isDigitC
    if ds.isEmpty then none else some (Int.ofNat (digitsToNat ds), l.drop ds.length)

mutual

/-- Recursive-descent JSON parser (strict `JSON.parse`).  The fuel is a
generous multiple of the input length; exhausting it reports a parse
error. -/
def parseJValue : Nat → List Char → Option (JValue × List Char)
  | 0, _ => none
  | fuel + 1, l =>
    match skipWs l with
    | [] => none
    | c :: rest =>
      if c = '{' then parseObjBody fuel rest
      else if c = '[' then parseArrBody fuel rest
      else if c = '"' then
        (parseStringBody fuel rest).map (fun p => (JValue.jstr (String.mk p.1), p.2))
      else if startsWithL ['t', 'r', 'u', 'e'] (c :: rest) then
        some (JValue.jbool true, (c :: rest).drop 4)
      else if startsWithL ['f', 'a', 'l', 's', 'e'] (c :: rest) then
        some (JValue.jbool false, (c :: rest).drop 5)
      else if startsWithL ['n', 'u', 'l', 'l'] (c :: rest) then
        some (JValue.jnull, (c :: rest).drop 4)
      else
        (parseNumberToken (c :: rest)).map (fun p => (JValue.jnum p.1, p.2))

def parseObjBody : Nat → List Char → Option (JValue × List Char)
  | 0, _ => none
  | fuel + 1, l =>
    match skipWs l with
    | '}' :: rest => some (JValue.jobj [], rest)
    | _ => parseObjItems fuel l []

def parseObjItems : Nat → List Char → List (String × JValue) →
    Option (JValue × List Char)
  | 0, _, _ => none
  | fuel + 1, l, acc =>
    match skipWs l with
    | '"' :: rest =>
      match parseStringBody fuel rest with
      | none => none
      | some (key, r1) =>
        match skipWs r1 with
        | ':' :: r2 =>
          match parseJValue fuel r2 with
          | none => none
          | some (v, r3) =>
            -- duplicate keys: the last occurrence wins, as in JS
            let acc := setA (String.mk key) v acc
            match skipWs r3 with
            | ',' :: r4 => parseObjItems fuel r4 acc
            | '}' :: r4 => some (JValue.jobj acc, r4)
            | _ => none
        | _ => none
    | _ => none

def parseArrBody : Nat → List Char → Option (JValue × List Char)
  | 0, _ => none
  | fuel + 1, l =>
    match skipWs l with
    | ']' :: rest => some (JValue.jarr [], rest)
    | _ => parseArrItems fuel l []

def parseArrItems : Nat → List Char → List JValue → Option (JValue × List Char)
  | 0, _, _ => none
  | fuel + 1, l, acc =>
    match parseJValue fuel l with
    | none => none
    | some (v, r1) =>
      match skipWs r1 with
      | ',' :: r2 => parseArrItems fuel r2 (acc ++ [v])
      | ']' :: r2 => some (JValue.jarr (acc ++ [v]), r2)
      | _ => none

end

/-- `JSON.parse` (strict tier): `none` models a thrown `SyntaxError`. -/
def jsonParse (s : String) : Option JValue :=
  match parseJValue (8 * (s.toList.length + 1)) s.toList with
  | none => none
  | some (v, rest) => if (skipWs rest).isEmpty then some v else none

/-! ## Backup restore (`src/utils/backupRestore.ts`, `restoreFromBackup`,
lines 113–388) -/

/-- JS `String.prototype.indexOf` (first index of a substring). -/
def indexOfSubAux (needle : List Char) : List Char → Nat → Option Nat
  | [], i => if startsWithL needle [] then some i else none
  | c :: t, i =>
    if startsWithL needle (c :: t) then some i else indexOfSubAux needle t (i + 1)

def indexOfSub (needle hay : List Char) : Option Nat := indexOfSubAux needle hay 0

/-- JS `String.prototype.lastIndexOf`. -/
def lastIndexOfSubAux (needle : List Char) : List Char → Nat → Option Nat → Option Nat
  | [], i, best => if startsWithL needle [] then some i else best
  | c :: t, i, best =>
    lastIndexOfSubAux needle t (i + 1)
      (if startsWithL needle (c :: t) then some i else best)

def lastIndexOfSub (needle hay : List Char) : Option Nat :=
  lastIndexOfSubAux needle hay 0 none

/-- The brace-balancing loop (lines 144–152): character-wise scan
tracking `braceCount` and the last position where it returned to 0. -/
def braceScanAux : List Char → Int → Nat → Nat → Nat
  | [], _, _, lastValid => lastValid
  | c :: t, count, i, lastValid =>
    if c = '{' then braceScanAux t (count + 1) (i + 1) lastValid
    else if c = '}' then
      if count - 1 = 0 then braceScanAux t (count - 1) (i + 1) (i + 1)
      else braceScanAux t (count - 1) (i + 1) lastValid
    else braceScanAux t count (i + 1) lastValid

def braceBalanceLastValid (l : List Char) : Nat := braceScanAux l 0 0 0

/-- The `\s` class of the repair/extraction regexes. -/
def isJsRegexWs (c : Char) : Bool := isJsonWs c || c = '\x0c' || c = '\x0b'

/-- One global-replace pass of `/,\s*X/g` with replacement `X` (used
with `X` = `}` and `X` = `]`): leftmost, non-overlapping, continuing
after each replacement. -/
def stripTrailingCommas (close : Char) : Nat → List Char → List Char
  | 0, l => l
  | _ + 1, [] => []
  | fuel + 1, c :: rest =>
    if c = ',' then
      let ws := rest.takeWhile isJsRegexWs
      match rest.drop ws.length with
      | d :: rest2 =>
        if d = close then close :: stripTrailingCommas close fuel rest2
        else c :: stripTrailingCommas close fuel rest
      | [] => c :: stripTrailingCommas close fuel rest
    else c :: stripTrailingCommas close fuel rest

/-- The repair tier (lines 176–178): strip trailing commas before `}`
and then before `]`. -/
def repairJson (l : List Char) : List Char :=
  let pass1 := stripTrailingCommas '}' l.length l
  stripTrailingCommas ']' pass1.length pass1

/-- The raw text of the string token `"(?:\\.|[^"\\])*"` after its
opening quote (quotes kept out of the returned token body). -/
def stringTokenBody : Nat → List Char → Option (List Char × List Char)
  | 0, _ => none
  | _ + 1, [] => none
  | fuel + 1, c :: rest =>
    if c = '"' then some ([], rest)
    else if c = '\\' then
      match rest with
      | [] => none
      | e :: rest2 =>
        if e = '\n' then none  -- `\\.` does not match a newline
        else (stringTokenBody fuel rest2).map (fun p => (c :: e :: p.1, p.2))
    else (stringTokenBody fuel rest).map (fun p => (c :: p.1, p.2))

/-- The value alternation of the extraction regex, in source order:
string, digit run, `true`, `false`, `null`, `\{[^}]*\}`, `\[[^\]]*\]`.
Returns the matched token text and the rest of the input. -/
def matchValueToken (fuel : Nat) (l : List Char) : Option (List Char × List Char) :=
  match l with
  | '"' :: rest =>
    match stringTokenBody fuel rest with
    | some (body, r) => some ('"' :: (body ++ ['"']), r)
    | none => none
  | _ =>
    let ds := l.takeWhile isDigitC
    if !ds.isEmpty then some (ds, l.drop ds.length)
    else if startsWithL ['t', 'r', 'u', 'e'] l then some (['t', 'r', 'u', 'e'], l.drop 4)
    else if startsWithL ['f', 'a', 'l', 's', 'e'] l then
      some (['f', 'a', 'l', 's', 'e'], l.drop 5)
    else if startsWithL ['n', 'u', 'l', 'l'] l then some (['n', 'u', 'l', 'l'], l.drop 4)
    else
      match l with
      | '{' :: rest =>
        let run := rest.takeWhile (fun c => c != '}')
        match rest.drop run.length with
        | '}' :: r2 => some ('{' :: (run ++ ['}']), r2)
        | _ => none
      | '[' :: rest =>
        let run := rest.takeWhile (fun c => c != ']')
        match rest.drop run.length with
        | ']' :: r2 => some ('[' :: (run ++ [']']), r2)
        | _ => none
      | _ => none

/-- Match the whole key/value extraction regex
`/"([^"]+)"\s*:\s*(...)/` at the head of the input, returning the key,
the raw value token and the rest (the pattern is deterministic — see
the matcher comments). -/
def matchKeyValueHere (fuel : Nat) (l : List Char) :
    Option (String × List Char × List Char) :=
  match l with
  | '"' :: rest =>
    let keyRun := rest.takeWhile (fun c => c != '"')
    if keyRun.isEmpty then none
    else
      match rest.drop keyRun.length with
      | '"' :: r1 =>
        match (r1.dropWhile isJsRegexWs) with
        | ':' :: r3 =>
          match matchValueToken fuel (r3.dropWhile isJsRegexWs) with
          | some (tok, r5) => some (String.mk keyRun, tok, r5)
          | none => none
        | _ => none
      | _ => none
  | _ => none

/-- The `keyValueRegex.exec` loop of the extraction tier (lines
189–201): scan for successive matches, `JSON.parse` each value token,
skip pairs whose token does not parse, and assemble an object
(later duplicate keys overwrite earlier ones). -/
def extractScan : Nat → List Char → List (String × JValue) → List (String × JValue)
  | 0, _, acc => acc
  | _ + 1, [], acc => acc
  | fuel + 1, c :: rest, acc =>
    match matchKeyValueHere fuel (c :: rest) with
    | some (key, tok, r5) =>
      let acc :=
        match jsonParse (String.mk tok) with
        | some v => setA key v acc
        | none => acc
      extractScan fuel r5 acc
    | none => extractScan fuel rest acc

/-- The three parse tiers (lines 162–213): strict parse, then the
trailing-comma repair, then best-effort key/value extraction; all three
failing raises the terminal parse error. -/
def parseBackupTiers (l : List Char) : Except String JValue :=
  match jsonParse (String.mk l) with
  | some v => Except.ok v
  | none =>
    match jsonParse (String.mk (repairJson l)) with
    | some v => Except.ok v
    | none =>
      let extracted := extractScan (l.length + 1) l []
      if extracted.isEmpty then
        Except.error "Could not parse backup file - invalid JSON format"
      else Except.ok (JValue.jobj extracted)

/-- JS truthiness of a JSON value. -/
def jsTruthy : JValue → Bool
  | .jnull => false
  | .jbool b => b
  | .jnum n => n != 0
  | .jstr s => s != ""
  | .jarr _ => true
  | .jobj _ => true

/-- Truthiness of a possibly-`undefined` value. -/
def jsTruthyOpt : Option JValue → Bool
  | none => false
  | some v => jsTruthy v

/-- JS property read `v.k` (`none` = `undefined`; reads on `null`
throw and are handled at the use sites). -/
def jget (v : JValue) (k : String) : Option JValue :=
  match v with
  | .jobj fields => lookupA k fields
  | _ => none

/-- JS `typeof v === 'object'` for non-null parsed JSON values. -/
def isObjType : JValue → Bool
  | .jobj _ => true
  | .jarr _ => true
  | _ => false

/-- JS `Object.entries` (arrays and strings enumerate by index). -/
def jentries : JValue → List (String × JValue)
  | .jobj fields => fields
  | .jarr elems => elems.enum.map (fun p => (toString p.1, p.2))
  | .jstr s => s.toList.enum.map (fun p => (toString p.1, JValue.jstr (String.mk [p.2])))
  | _ => []

/-! ## Decoding/encoding the primary application-data document

The merge step of `restoreFromBackup` (lines 263–310) manipulates the
`app_data` JSON documents through the `AppData` shape declared in
`DataStore.ts`.  `decodeAppData` reads a JSON value as such a document
(extra fields are ignored); a value that does not have the document
shape makes the decoder fail, which models the code paths where the
merge is skipped (the `backupAppData.devices && existingAppData.devices`
guard being falsy, or a `TypeError` thrown inside the `try` being
swallowed by the `catch` that continues with the original data). -/

def decodeString : JValue → Option String
  | .jstr s => some s
  | _ => none

def decodeStringArr : JValue → Option (List String)
  | .jarr es => es.mapM decodeString
  | _ => none

def decodeCategory : JValue → Option Category
  | .jstr "relay" => some Category.relay
  | .jstr "settings" => some Category.settings
  | .jstr "user" => some Category.user
  | .jstr "system" => some Category.system
  | _ => none

def decodeAccessControl : JValue → Option AccessControl
  | .jstr "AUT" => some AccessControl.AUT
  | .jstr "ALL" => some AccessControl.ALL
  | _ => none

def decodeBool : JValue → Option Bool
  | .jbool b => some b
  | _ => none

def decodeRelaySettings (v : JValue) : Option RelaySettings := do
  let a ← (jget v "accessControl").bind decodeAccessControl
  let l ← (jget v "latchTime").bind decodeString
  pure { accessControl := a, latchTime := l }

def decodeDevice (v : JValue) : Option Device := do
  let id ← (jget v "id").bind decodeString
  let name ← (jget v "name").bind decodeString
  let unitNumber ← (jget v "unitNumber").bind decodeString
  let password ← (jget v "password").bind decodeString
  let authorizedUsers ← (jget v "authorizedUsers").bind decodeStringArr
  let createdAt ← (jget v "createdAt").bind decodeString
  let updatedAt ← (jget v "updatedAt").bind decodeString
  pure { id := id, name := name, unitNumber := unitNumber, password := password,
         authorizedUsers := authorizedUsers, createdAt := createdAt,
         updatedAt := updatedAt,
         relaySettings := (jget v "relaySettings").bind decodeRelaySettings }

def decodeUser (v : JValue) : Option User := do
  let id ← (jget v "id").bind decodeString
  let name ← (jget v "name").bind decodeString
  let phoneNumber ← (jget v "phoneNumber").bind decodeString
  let serialNumber ← (jget v "serialNumber").bind decodeString
  pure { id := id, name := name, phoneNumber := phoneNumber,
         serialNumber := serialNumber,
         startTime := (jget v "startTime").bind decodeString,
         endTime := (jget v "endTime").bind decodeString }

def decodeLogEntry (v : JValue) : Option DSLogEntry := do
  let id ← (jget v "id").bind decodeString
  let timestamp ← (jget v "timestamp").bind decodeString
  let action ← (jget v "action").bind decodeString
  let details ← (jget v "details").bind decodeString
  let success ← (jget v "success").bind decodeBool
  let category ← (jget v "category").bind decodeCategory
  pure { id := id, timestamp := timestamp, action := action, details := details,
         success := success, category := category }

def decodeLogs : JValue → Option (List (String × List DSLogEntry))
  | .jobj fields =>
    fields.mapM (fun p =>
      match p.2 with
      | .jarr es => (es.mapM decodeLogEntry).map (fun l => (p.1, l))
      | _ => none)
  | _ => none

def decodeGlobalSettings (v : JValue) : Option GlobalSettings := do
  let adminNumber ← (jget v "adminNumber").bind decodeString
  let activeDeviceId ←
    match jget v "activeDeviceId" with
    | some JValue.jnull => some none
    | some (JValue.jstr s) => some (some s)
    | _ => none
  let completedSteps ← (jget v "completedSteps").bind decodeStringArr
  pure { adminNumber := adminNumber, activeDeviceId := activeDeviceId,
         completedSteps := completedSteps }

def decodeAppData (v : JValue) : Option AppData := do
  let devices ←
    match jget v "devices" with
    | some (JValue.jarr es) => es.mapM decodeDevice
    | _ => none
  let users ←
    match jget v "users" with
    | some (JValue.jarr es) => es.mapM decodeUser
    | _ => none
  let logs ← (jget v "logs").bind decodeLogs
  let globalSettings ← (jget v "globalSettings").bind decodeGlobalSettings
  pure { devices := devices, users := users, logs := logs,
         globalSettings := globalSettings }

def encodeCategory : Category → JValue
  | Category.relay => .jstr "relay"
  | Category.settings => .jstr "settings"
  | Category.user => .jstr "user"
  | Category.system => .jstr "system"

def encodeRelaySettings (rs : RelaySettings) : JValue :=
  .jobj [("accessControl",
           .jstr (match rs.accessControl with
                  | AccessControl.AUT => "AUT"
                  | AccessControl.ALL => "ALL")),
         ("latchTime", .jstr rs.latchTime)]

def encodeDevice (d : Device) : JValue :=
  .jobj ([("id", .jstr d.id), ("name", .jstr d.name),
          ("unitNumber", .jstr d.unitNumber), ("password", .jstr d.password),
          ("authorizedUsers", .jarr (d.authorizedUsers.map JValue.jstr)),
          ("createdAt", .jstr d.createdAt), ("updatedAt", .jstr d.updatedAt)]
    ++ (match d.relaySettings with
        | some rs => [("relaySettings", encodeRelaySettings rs)]
        | none => []))

def encodeUser (u : User) : JValue :=
  .jobj ([("id", .jstr u.id), ("name", .jstr u.name),
          ("phoneNumber", .jstr u.phoneNumber),
          ("serialNumber", .jstr u.serialNumber)]
    ++ (match u.startTime with | some t => [("startTime", .jstr t)] | none => [])
    ++ (match u.endTime with | some t => [("endTime", .jstr t)] | none => []))

def encodeLogEntry (e : DSLogEntry) : JValue :=
  .jobj [("id", .jstr e.id), ("timestamp", .jstr e.timestamp),
         ("action", .jstr e.action), ("details", .jstr e.details),
         ("success", .jbool e.success), ("category", encodeCategory e.category)]

def encodeAppData (a : AppData) : JValue :=
  .jobj [("devices", .jarr (a.devices.map encodeDevice)),
         ("users", .jarr (a.users.map encodeUser)),
         ("logs", .jobj (a.logs.map (fun p => (p.1, .jarr (p.2.map encodeLogEntry))))),
         ("globalSettings",
           .jobj [("adminNumber", .jstr a.globalSettings.adminNumber),
                  ("activeDeviceId",
                    match a.globalSettings.activeDeviceId with
                    | some s => .jstr s
                    | none => .jnull),
                  ("completedSteps",
                    .jarr (a.globalSettings.completedSteps.map JValue.jstr))])]

/-! ## The restore merge (lines 263–310) -/

/-- Device merge (lines 271–285): a `Set` of the destination's device
ids is taken first, then every backup device whose id is not in that
set is pushed onto the destination list; backup devices whose id
collides with an existing one are skipped. -/
def mergeDevices (existingDevices backupDevices : List Device) : List Device :=
  existingDevices
    ++ backupDevices.filter
        (fun b => !(existingDevices.any (fun d => d.id == b.id)))

/-- Log merge for one destination bucket (lines 289–299): a bucket key
missing from the backup logs is copied over; for a key present on both
sides the backup entries whose id collides with a destination entry are
dropped and the rest are prepended to the destination entries. -/
def mergeLogsStep (acc : List (String × List DSLogEntry))
    (p : String × List DSLogEntry) : List (String × List DSLogEntry) :=
  match lookupA p.1 acc with
  | none => acc ++ [(p.1, p.2)]
  | some backupBucket =>
    setA p.1
      ((backupBucket.filter (fun e => !(p.2.any (fun x => x.id == e.id)))) ++ p.2)
      acc

/-- Log merge (lines 288–301): fold the destination's buckets into the
backup's log object. -/
def mergeLogs (backupLogs existingLogs : List (String × List DSLogEntry)) :
    List (String × List DSLogEntry) :=
  existingLogs.foldl mergeLogsStep backupLogs

/-- The merged `app_data` document (lines 263–310): the backup document
with its device list replaced by the merged list and its logs replaced
by the merged logs (the backup's `users` and `globalSettings` are kept
as they are — the code never touches them). -/
def mergeAppData (backupAppData existingAppData : AppData) : AppData :=
  { backupAppData with
    devices := mergeDevices existingAppData.devices backupAppData.devices
    logs := mergeLogs backupAppData.logs existingAppData.logs }

/-- A log bucket of a logs object (empty when the key is absent). -/
def bucketL (k : String) (logs : List (String × List DSLogEntry)) :
    List DSLogEntry :=
  (lookupA k logs).getD []

/-! ## `restoreFromBackup` assembled -/

/-- The persisted key-value store, with values held in parsed form (the
`JSON.stringify` on write / `JSON.parse` on read round trip through the
string-valued `AsyncStorage` is the identity on this representation). -/
abbrev Storage := List (String × JValue)

/-- Payload-shape resolution (lines 215–228): a nested `{data: ...}`
envelope, a direct object, or a top-level array treated as a legacy
device list; `null` reaches `Object.entries` and throws, and any other
primitive raises `'Unsupported backup format'`. -/
def resolvePayload (parsedData : JValue) : Except String (List (String × JValue)) :=
  if jsTruthy parsedData && jsTruthyOpt (jget parsedData "data")
      && isObjType ((jget parsedData "data").getD JValue.jnull) then
    Except.ok (jentries ((jget parsedData "data").getD JValue.jnull))
  else
    match parsedData with
    | .jobj fields => Except.ok fields
    | .jnull => Except.error "Cannot convert undefined or null to object"
    | .jarr _ => Except.ok [("gsm_devices", parsedData)]
    | _ => Except.error "Unsupported backup format"

/-- The log-caching loop (lines 243–259): cache every payload entry
whose key contains `"logs"` or is `app_data`; for an `app_data` object
that has a truthy `logs` property, cache just that property under the
key `app_logs`.  (In JS the cached reference aliases the object later
mutated by the merge; the pure model caches the pre-merge value, which
can differ only in the contents written under the auxiliary `app_logs`
key.) -/
def buildCachedLogs (dataToStore : List (String × JValue)) : List (String × JValue) :=
  dataToStore.foldl
    (fun cachedLogs p =>
      if containsL ['l', 'o', 'g', 's'] p.1.toList || p.1 = "app_data" then
        if p.1 = "app_data" && jsTruthy p.2 && isObjType p.2
            && jsTruthyOpt (jget p.2 "logs") then
          setA "app_logs" ((jget p.2 "logs").getD JValue.jnull) cachedLogs
        else setA p.1 p.2 cachedLogs
      else cachedLogs)
    []

/-- The conflict-handling step (lines 263–310): when the payload and the
destination both hold a truthy `app_data` and both documents have the
`AppData` shape, replace the payload's `app_data` with the merged
document; otherwise the payload is left as is (see `decodeAppData`). -/
def mergeIntoDataToStore (dataToStore : List (String × JValue))
    (existingAppData : Option JValue) : List (String × JValue) :=
  if jsTruthyOpt (lookupA "app_data" dataToStore) && jsTruthyOpt existingAppData then
    match lookupA "app_data" dataToStore, existingAppData with
    | some bv, some ev =>
      match decodeAppData bv, decodeAppData ev with
      | some backupAD, some existingAD =>
        setA "app_data" (encodeAppData (mergeAppData backupAD existingAD)) dataToStore
      | _, _ => dataToStore
    | _, _ => dataToStore
  else dataToStore

/-- The main write loop (lines 333–345): `null` values are skipped,
every other entry is written and counted (writes against the pure
storage cannot fail). -/
def writeItems (dataToStore : List (String × JValue)) (storage : Storage) :
    Storage × Nat :=
  dataToStore.foldl
    (fun acc p =>
      match p.2 with
      | .jnull => acc
      | v => (setA p.1 v acc.1, acc.2 + 1))
    (storage, 0)

/-- The cached-logs write loop (lines 348–365): keys already present
(truthily) in the payload are skipped, the rest are written and
counted. -/
def writeCachedLogs (cachedLogs dataToStore : List (String × JValue))
    (storage : Storage) (n : Nat) : Storage × Nat :=
  cachedLogs.foldl
    (fun acc p =>
      if jsTruthyOpt (lookupA p.1 dataToStore) then acc
      else (setA p.1 p.2 acc.1, acc.2 + 1))
    (storage, n)

/-- The content-preprocessing steps (lines 123–157): trim, move the
start to the earliest plausible JSON-object opening, truncate after a
balanced closing brace. -/
def preprocessBackup (backupJson : String) : List Char :=
  let processed := (jsStrTrim backupJson).toList
  let starts :=
    [indexOfSub ['{', '"'] processed,
     indexOfSub ['{', '\n', '"'] processed,
     indexOfSub ['{', ' ', '"'] processed,
     lastIndexOfSub ['{', '"'] processed].filterMap id
  let processed :=
    match starts.min? with
    | some j => if j > 0 then processed.drop j else processed
    | none => processed
  let lastValid := braceBalanceLastValid processed
  if lastValid > 0 && lastValid < processed.length then processed.take lastValid
  else processed

/-- The final success check (lines 367–369, 383): a zero write count is
raised as a hard failure, anything else reports success (the
`forceReinitialization` between the check and the `return true`
swallows its own errors and cannot fail the restore). -/
def finishRestore (w : Storage × Nat) : Except String (Storage × Nat) :=
  if w.2 = 0 then Except.error "Failed to restore any items"
  else Except.ok (w.1, w.2)

/-- The steps of `restoreFromBackup` from the resolved payload on
(lines 230–369): cache the existing `app_data` and the log keys, merge,
clear the remaining keys, write every payload entry and the cached log
keys, and apply the final success check. -/
def restoreResolved (dataToStore₀ : List (String × JValue)) (storage : Storage) :
    Except String (Storage × Nat) :=
  let existingAppData := lookupA "app_data" storage
  let cachedLogs := buildCachedLogs dataToStore₀
  let dataToStore := mergeIntoDataToStore dataToStore₀ existingAppData
  let keysToRemove :=
    (storage.map Prod.fst).filter
      (fun k =>
        !(k = "app_data" && jsTruthyOpt (lookupA "app_data" dataToStore)
            && jsTruthyOpt existingAppData))
  let storage := storage.filter (fun p => !(keysToRemove.contains p.1))
  let w1 := writeItems dataToStore storage
  finishRestore (writeCachedLogs cachedLogs dataToStore w1.1 w1.2)

/-- `restoreFromBackup` (lines 113–388) as a pure function from the
backup text and the current storage to either a thrown error or the new
storage with the number of keys successfully written.  The
`forceReinitialization` of the in-memory store cache (errors there are
swallowed) does not touch the persisted storage and is not modelled. -/
def restoreFromBackup (backupJson : String) (storage : Storage) :
    Except String (Storage × Nat) :=
  if backupJson = "" then Except.error "Backup file appears to be empty"
  else
    match parseBackupTiers (preprocessBackup backupJson) with
    | Except.error e => Except.error e
    | Except.ok parsedData =>
      match resolvePayload parsedData with
      | Except.error e => Except.error e
      | Except.ok dataToStore => restoreResolved dataToStore storage

/-! ## Concrete fixtures used by the witness and counterexample theorems -/

def c8User : User :=
  { id := "u1", name := "Alice", phoneNumber := "+61400000001",
    serialNumber := "001", startTime := none, endTime := none }

def c8Device : Device :=
  { id := "dev1", name := "Front Gate", unitNumber := "+61400000100",
    password := "1234", authorizedUsers := ["u1", "u2"],
    createdAt := "2024-01-01", updatedAt := "2024-01-01",
    relaySettings := some { accessControl := .AUT, latchTime := "000" } }

def c8Store : AppData :=
  { devices := [c8Device], users := [c8User], logs := [],
    globalSettings :=
      { adminNumber := "", activeDeviceId := some "dev1", completedSteps := [] } }

def c7BadDevice : Device :=
  { id := "undefined", name := "Shed Gate", unitNumber := "+61400000101",
    password := "5678", authorizedUsers := [], createdAt := "2024-01-02",
    updatedAt := "2024-01-02", relaySettings := none }

def c7BadStore : AppData :=
  { devices := [c7BadDevice], users := [],
    logs := [("undefined", [])],
    globalSettings :=
      { adminNumber := "", activeDeviceId := some "undefined",
        completedSteps := [] } }

def c7Store : AppData :=
  { devices := [c8Device, c7BadDevice], users := [c8User],
    logs := [("dev1", []), ("undefined", [])],
    globalSettings :=
      { adminNumber := "", activeDeviceId := some "dev1",
        completedSteps := [] } }

def c6Call : LogCall :=
  { id := "log1", timestamp := "2024-01-01T00:00:00Z", action := "Gate Open",
    details := "Opened gate/activated relay (ON)", success := true,
    category := .relay }

def c2DevA : Device :=
  { id := "id1", name := "Old Name", unitNumber := "+61400000200",
    password := "1111", authorizedUsers := [], createdAt := "c1",
    updatedAt := "u1", relaySettings := none }

def c2DevA' : Device := { c2DevA with name := "New Name" }

def c2DevB : Device := { c2DevA with id := "id2", name := "Second Gate" }

def c2Gs : GlobalSettings :=
  { adminNumber := "", activeDeviceId := none, completedSteps := [] }

def c2Existing : AppData :=
  { devices := [c2DevA], users := [], logs := [("id1", [])], globalSettings := c2Gs }

def c2Backup : AppData :=
  { devices := [c2DevA', c2DevB], users := [], logs := [], globalSettings := c2Gs }

end RelayAPC

open RelayAPC

/-- C1: the admin-number normalization claim.  The claimed algorithm
(strip non-digits; drop a single leading `0` only when the string does
not start with `00`; prepend `00` when missing) is implemented verbatim
by `setup.tsx`: its `registerAdminNumber` maps `"0469123456"` to
`"00469123456"`, `"61469123456"` to `"0061469123456"` and leaves
`"0061469123456"` unchanged.  The sibling `registerAdminNumber` in
`src/unnamed/part_006` — the location the claim cites — instead drops
the leading `0` even from a `00`-prefixed number and then re-prepends
`00`, so on the documented input `"0061469123456"` it produces
`"00061469123456"` instead of leaving it unchanged, contradicting the
claim (and the command preview rendered by the very same screen). -/
theorem C1_admin_number_normalization :
    formatAdminNumberSetup "0469123456" = "00469123456"
    ∧ formatAdminNumberSetup "61469123456" = "0061469123456"
    ∧ formatAdminNumberSetup "0061469123456" = "0061469123456"
    ∧ formatAdminNumberPart006 "0469123456" = "00469123456"
    ∧ formatAdminNumberPart006 "61469123456" = "0061469123456"
    ∧ formatAdminNumberPart006 "0061469123456" = "00061469123456"
    ∧ formatAdminNumberPart006 "0061469123456" ≠ "0061469123456" := by
  refine ⟨?_, ?_, ?_, ?_, ?_, ?_, ?_⟩ <;> decide

/-! ## Helper lemmas about the association-list and list operations -/

theorem lookupA_setA_self {α : Type} (k : String) (v : α) (l : List (String × α)) :
    lookupA k (setA k v l) = some v := by
  induction l with
  | nil => simp [setA, lookupA]
  | cons p rest ih =>
    obtain ⟨k', v'⟩ := p
    by_cases h : k' = k
    · simp [setA, lookupA, h]
    · simp [setA, lookupA, h, ih]

theorem lookupA_removeA_self {α : Type} (k : String) (l : List (String × α)) :
    lookupA k (removeA k l) = none := by
  induction l with
  | nil => rfl
  | cons p rest ih =>
    obtain ⟨k', v'⟩ := p
    by_cases h : k' = k
    · simpa [removeA, h] using ih
    · simpa [removeA, lookupA, h] using ih

theorem find?_updateFirstDevice (p : Device → Bool) (f : Device → Device)
    (l : List Device) (hpf : ∀ d, p d = true → p (f d) = true) :
    (updateFirstDevice p f l).find? p = (l.find? p).map f := by
  induction l with
  | nil => rfl
  | cons d rest ih =>
    by_cases h : p d = true
    · simp [updateFirstDevice, h, List.find?_cons, hpf d h]
    · have h' : p d = false := by simpa using h
      simp [updateFirstDevice, h', List.find?_cons, ih]

theorem updateFirstDevice_eq_self (p : Device → Bool) (f : Device → Device)
    (l : List Device) (dev : Device) (hfind : l.find? p = some dev)
    (hf : f dev = dev) : updateFirstDevice p f l = l := by
  induction l with
  | nil => simp at hfind
  | cons d rest ih =>
    by_cases h : p d = true
    · rw [List.find?_cons_of_pos _ h] at hfind
      obtain rfl : d = dev := by simpa using hfind
      simp [updateFirstDevice, h, hf]
    · have h' : p d = false := by simpa using h
      rw [List.find?_cons_of_neg _ (by simp [h'])] at hfind
      simp [updateFirstDevice, h', ih hfind]

/-- C8: for every store state and user id, `deleteUser` scrubs that id
from the `authorizedUsers` list of every device in the store, so no
device keeps an orphan reference to the deleted user. -/
theorem C8_deleteUser_scrubs_all_devices (s : AppData) (u : String) :
    ∀ d ∈ (deleteUser u s).1.devices, u ∉ d.authorizedUsers := by
  intro d hd
  simp only [deleteUser, List.mem_map] at hd
  obtain ⟨d0, _, rfl⟩ := hd
  simp [List.mem_filter]

/-- Witness for C8 at a concrete store. -/
theorem C8_deleteUser_scrubs_all_devices_witness :
    "u1" ∉ ({ c8Device with authorizedUsers := ["u2"] } : Device).authorizedUsers := by
  exact C8_deleteUser_scrubs_all_devices c8Store "u1"
    { c8Device with authorizedUsers := ["u2"] } (by decide)

/-- C7 (amended): for every store state and every existing device id `d`
other than the empty string and the literal string `"undefined"`,
`deleteDevice d` removes every device with that id and its log bucket,
leaves the global user list unchanged, re-points `activeDeviceId` to a
remaining device (or `null`) when `d` was active and leaves it alone
otherwise, and returns `true`; and for an id matching no device it
returns `false` and leaves the store unchanged. -/
theorem C7_deleteDevice_frame (s : AppData) (d : String)
    (hne : d ≠ "") (hnu : d ≠ "undefined")
    (dev : Device) (hmem : dev ∈ s.devices) (hid : dev.id = d) :
    (∀ x ∈ (deleteDevice d s).1.devices, x.id ≠ d)
    ∧ lookupA d (deleteDevice d s).1.logs = none
    ∧ (deleteDevice d s).1.users = s.users
    ∧ (s.globalSettings.activeDeviceId = some d →
        ((deleteDevice d s).1.devices = []
           ∧ (deleteDevice d s).1.globalSettings.activeDeviceId = none)
        ∨ (∃ x ∈ (deleteDevice d s).1.devices,
            (deleteDevice d s).1.globalSettings.activeDeviceId = some x.id))
    ∧ (s.globalSettings.activeDeviceId ≠ some d →
        (deleteDevice d s).1.globalSettings.activeDeviceId
          = s.globalSettings.activeDeviceId)
    ∧ (deleteDevice d s).2 = true
    ∧ (∀ (s' : AppData) (d' : String), (∀ x ∈ s'.devices, x.id ≠ d') →
        deleteDevice d' s' = (s', false)) := by
  have hguard : ¬ (d = "" ∨ d = "undefined") := by
    rintro (h | h) <;> [exact hne h; exact hnu h]
  have hfind : (s.devices.find? (fun x => x.id == d)).isSome := by
    rw [List.find?_isSome]
    exact ⟨dev, hmem, by simp [hid]⟩
  obtain ⟨d0, hd0⟩ := Option.isSome_iff_exists.mp hfind
  rw [deleteDevice, if_neg hguard, hd0]
  refine ⟨?_, ?_, ?_, ?_, ?_, ?_, ?_⟩
  · intro x hx
    simp only [List.mem_filter] at hx
    simpa using hx.2
  · exact lookupA_removeA_self d s.logs
  · rfl
  · intro hact
    simp only [hact, if_pos rfl]
    rcases hh : (s.devices.filter (fun x => x.id != d)).head? with _ | x0
    · exact Or.inl ⟨List.head?_eq_none_iff.mp hh, by simp [hh]⟩
    · exact Or.inr ⟨x0, List.mem_of_mem_head? hh, by simp [hh]⟩
  · intro hact
    simp [hact]
  · simp only [decide_eq_true_eq]
    have : (s.devices.filter (fun x => x.id != d)).length < s.devices.length := by
      rw [List.length_filter_lt_length_iff_exists]
      exact ⟨dev, hmem, by simp [hid]⟩
    omega
  · intro s' d' hnotin
    by_cases hg : d' = "" ∨ d' = "undefined"
    · rw [deleteDevice, if_pos hg]
    · have : s'.devices.find? (fun x => x.id == d') = none := by
        rw [List.find?_eq_none]
        intro x hx
        simpa using hnotin x hx
      rw [deleteDevice, if_neg hg, this]

/-- C7 counterexample: the claim as stated fails on a store containing a
device whose id is the literal string `"undefined"` (such ids can enter
the store through backup restore): the id exists, yet `deleteDevice`
refuses at the defensive guard, removes nothing, and returns `false`. -/
theorem C7_deleteDevice_counterexample :
    c7BadDevice ∈ c7BadStore.devices
    ∧ deleteDevice "undefined" c7BadStore = (c7BadStore, false)
    ∧ c7BadDevice ∈ (deleteDevice "undefined" c7BadStore).1.devices := by
  refine ⟨by decide, by decide, by decide⟩

/-- Witness for C7 at a concrete store. -/
theorem C7_deleteDevice_frame_witness :
    (deleteDevice "dev1" c7Store).2 = true
    ∧ lookupA "dev1" (deleteDevice "dev1" c7Store).1.logs = none
    ∧ (deleteDevice "dev1" c7Store).1.users = c7Store.users := by
  have h := C7_deleteDevice_frame c7Store "dev1" (by decide) (by decide)
    c8Device (by decide) (by decide)
  exact ⟨h.2.2.2.2.2.1, h.2.1, h.2.2.1⟩

/-- C9: `authorizeUserForDevice` / `deauthorizeUserForDevice` are
idempotent set-membership operations on the (first) device found with
the given id: authorizing an already-present user id or deauthorizing an
absent one leaves the store unchanged and returns `false`; authorizing
an absent id appends it and deauthorizing a present id removes it, each
returning `true`. -/
theorem C9_authorization_toggle (s : AppData) (deviceId userId : String)
    (dev : Device)
    (hfind : s.devices.find? (fun d => d.id == deviceId) = some dev) :
    (userId ∈ dev.authorizedUsers →
        authorizeUserForDevice deviceId userId s = (s, false))
    ∧ (userId ∉ dev.authorizedUsers →
        (authorizeUserForDevice deviceId userId s).2 = true
        ∧ (authorizeUserForDevice deviceId userId s).1.devices.find?
              (fun d => d.id == deviceId)
            = some { dev with authorizedUsers := dev.authorizedUsers ++ [userId] })
    ∧ (userId ∉ dev.authorizedUsers →
        deauthorizeUserForDevice deviceId userId s = (s, false))
    ∧ (userId ∈ dev.authorizedUsers →
        (deauthorizeUserForDevice deviceId userId s).2 = true
        ∧ (deauthorizeUserForDevice deviceId userId s).1.devices.find?
              (fun d => d.id == deviceId)
            = some { dev with authorizedUsers :=
                dev.authorizedUsers.filter (fun i => i != userId) }
        ∧ userId ∉ dev.authorizedUsers.filter (fun i => i != userId)) := by
  have hpdev : (dev.id == deviceId) = true := by
    have := List.find?_some hfind
    simpa using this
  refine ⟨?_, ?_, ?_, ?_⟩
  · intro hmem
    simp only [authorizeUserForDevice, hfind]
    rw [if_pos hmem]
  · intro hmem
    simp only [authorizeUserForDevice, hfind]
    rw [if_neg hmem]
    constructor
    · rfl
    · have := find?_updateFirstDevice (fun d => d.id == deviceId)
        (fun d => { d with authorizedUsers := d.authorizedUsers ++ [userId] })
        s.devices (fun d h => by simpa using h)
      rw [this, hfind]
      rfl
  · intro hmem
    have hsame : dev.authorizedUsers.filter (fun i => i != userId)
        = dev.authorizedUsers := by
      rw [List.filter_eq_self]
      intro a ha
      simp only [bne_iff_ne, ne_eq]
      rintro rfl
      exact hmem ha
    simp only [deauthorizeUserForDevice, hfind]
    rw [if_neg (by rw [hsame]; exact fun h => h rfl)]
    have hupd : updateFirstDevice (fun d => d.id == deviceId)
        (fun d => { d with authorizedUsers :=
          d.authorizedUsers.filter (fun i => i != userId) })
        s.devices = s.devices := by
      refine updateFirstDevice_eq_self _ _ _ dev hfind ?_
      rw [hsame]
    rw [hupd]
  · intro hmem
    have hlt : (dev.authorizedUsers.filter (fun i => i != userId)).length
        < dev.authorizedUsers.length := by
      rw [List.length_filter_lt_length_iff_exists]
      exact ⟨userId, hmem, by simp⟩
    simp only [deauthorizeUserForDevice, hfind]
    rw [if_pos (by omega)]
    refine ⟨rfl, ?_, ?_⟩
    · have := find?_updateFirstDevice (fun d => d.id == deviceId)
        (fun d => { d with authorizedUsers :=
          d.authorizedUsers.filter (fun i => i != userId) })
        s.devices (fun d h => by simpa using h)
      rw [this, hfind]
      rfl
    · simp [List.mem_filter]

/-- Witness for C9 at a concrete store. -/
theorem C9_authorization_toggle_witness :
    authorizeUserForDevice "dev1" "u1" c8Store = (c8Store, false)
    ∧ deauthorizeUserForDevice "dev1" "u3" c8Store = (c8Store, false) := by
  have h := C9_authorization_toggle c8Store "dev1" "u1" c8Device (by decide)
  have h' := C9_authorization_toggle c8Store "dev1" "u3" c8Device (by decide)
  exact ⟨h.1 (by decide), h'.2.2.1 (by decide)⟩

/-- C10 (amended): `setActiveDevice id` returns `false` and leaves
`activeDeviceId` unchanged whenever `id` is non-null, non-empty, and
matches no existing device; it returns `true` after setting the value
whenever `id` is null or matches an existing device; and after any call
`activeDeviceId` is null, the empty string (which the JS falsiness
guard lets through), or the id of a device currently in the store —
except that a failed call leaves the whole store untouched. -/
theorem C10_setActiveDevice_validation (s : AppData) (id : String) :
    (id ≠ "" → (∀ d ∈ s.devices, d.id ≠ id) →
        setActiveDevice (some id) s = (s, false))
    ∧ ((∃ d ∈ s.devices, d.id = id) →
        setActiveDevice (some id) s
          = ({ s with globalSettings :=
                { s.globalSettings with activeDeviceId := some id } }, true))
    ∧ (setActiveDevice none s
        = ({ s with globalSettings :=
              { s.globalSettings with activeDeviceId := none } }, true))
    ∧ (∀ o : Option String,
        (setActiveDevice o s).1.globalSettings.activeDeviceId = none
        ∨ (setActiveDevice o s).1.globalSettings.activeDeviceId = some ""
        ∨ (∃ d ∈ (setActiveDevice o s).1.devices,
            (setActiveDevice o s).1.globalSettings.activeDeviceId = some d.id)
        ∨ ((setActiveDevice o s).2 = false ∧ (setActiveDevice o s).1 = s)) := by
  refine ⟨?_, ?_, ?_, ?_⟩
  · intro hne hno
    have hany : s.devices.any (fun d => some d.id == some id) = false := by
      rw [List.any_eq_false]
      intro d hd
      simpa using hno d hd
    simp only [setActiveDevice, hany]
    rw [if_pos (by simp [hne])]
  · rintro ⟨d, hd, rfl⟩
    have hany : s.devices.any (fun x => some x.id == some d.id) = true := by
      rw [List.any_eq_true]
      exact ⟨d, hd, by simp⟩
    simp only [setActiveDevice, hany]
    rw [if_neg (by simp)]
  · simp only [setActiveDevice]
    rw [if_neg (by simp)]
  · intro o
    match o with
    | none =>
      simp only [setActiveDevice]
      rw [if_neg (by simp)]
      exact Or.inl rfl
    | some id' =>
      by_cases hc : ((id' != "") && !(s.devices.any (fun d => some d.id == some id'))) = true
      · refine Or.inr (Or.inr (Or.inr ?_))
        simp only [setActiveDevice]
        rw [if_pos hc]
        exact ⟨rfl, rfl⟩
      · by_cases hemp : id' = ""
        · refine Or.inr (Or.inl ?_)
          subst hemp
          simp only [setActiveDevice]
          rw [if_neg hc]
        · refine Or.inr (Or.inr (Or.inl ?_))
          have hany : s.devices.any (fun d => some d.id == some id') = true := by
            rcases Bool.eq_false_or_eq_true (s.devices.any (fun d => some d.id == some id')) with h | h
            · exact h
            · refine absurd ?_ hc
              rw [Bool.and_eq_true]
              refine ⟨by simpa using hemp, ?_⟩
              rw [Bool.not_eq_true']
              exact h
          rw [List.any_eq_true] at hany
          obtain ⟨d, hd, hdid⟩ := hany
          have hid' : d.id = id' := by simpa using hdid
          simp only [setActiveDevice]
          rw [if_neg hc]
          exact ⟨d, hd, by rw [hid']⟩

/-- C10 counterexample: the claim as stated fails for the non-null id
`""` on a store with no devices: the JS falsiness guard skips the
existence check, so `setActiveDevice` sets `activeDeviceId := ""` and
returns `true` even though `""` matches no device — and afterwards
`activeDeviceId` is neither null nor the id of any stored device. -/
theorem C10_setActiveDevice_counterexample :
    initialState.devices = []
    ∧ (setActiveDevice (some "") initialState).2 = true
    ∧ (setActiveDevice (some "") initialState).1.globalSettings.activeDeviceId
        = some "" := by
  refine ⟨rfl, by decide, by decide⟩

/-- Witness for C10 at a concrete store. -/
theorem C10_setActiveDevice_validation_witness :
    setActiveDevice (some "nope") c8Store = (c8Store, false)
    ∧ (setActiveDevice (some "dev1") c8Store).2 = true := by
  have h := C10_setActiveDevice_validation c8Store "nope"
  have h' := C10_setActiveDevice_validation c8Store "dev1"
  refine ⟨h.1 (by decide) (by decide), ?_⟩
  rw [h'.2.1 ⟨c8Device, by decide, by decide⟩]

theorem bucketOf_addDeviceLog (s : AppData) (d : String)
    (hd : jsStrTrim d ≠ "") (c : LogCall) :
    bucketOf d ((addDeviceLog d c s).1)
      = mkLogEntry c :: (bucketOf d s).take 199 := by
  simp only [addDeviceLog, bucketOf]
  rw [if_neg hd]
  rw [lookupA_setA_self]
  rfl

theorem bucketOf_foldAddDeviceLog_length (d : String) (hd : jsStrTrim d ≠ "")
    (calls : List LogCall) :
    ∀ s : AppData, (bucketOf d s).length ≤ 200 →
      (bucketOf d (foldAddDeviceLog d calls s)).length
        = min ((bucketOf d s).length + calls.length) 200 := by
  induction calls with
  | nil =>
    intro s hs
    simp only [foldAddDeviceLog, List.foldl_nil, List.length_nil]
    omega
  | cons c cs ih =>
    intro s hs
    have hstep : foldAddDeviceLog d (c :: cs) s
        = foldAddDeviceLog d cs ((addDeviceLog d c s).1) := rfl
    have hb := bucketOf_addDeviceLog s d hd c
    have hlen : (bucketOf d ((addDeviceLog d c s).1)).length
        = min ((bucketOf d s).length + 1) 200 := by
      rw [hb]
      simp [List.length_take]
      omega
    rw [hstep, ih ((addDeviceLog d c s).1) (by omega), hlen]
    simp only [List.length_cons]
    omega

/-- C6: per-device log buckets are bounded ring buffers: each
`addDeviceLog` prepends the new entry (newest first) and truncates the
bucket with `slice(0, 199)`, so a bucket never exceeds 200 entries and
appending `n` entries to a bucket of size `k ≤ 200` leaves
`min (k + n) 200`; the `LogManager` system-wide buffer is updated the
same way with bound 100 (and its device buckets with bound 200). -/
theorem C6_log_ring_buffers (s : AppData) (d : String) (hd : jsStrTrim d ≠ "") :
    (∀ c : LogCall, bucketOf d ((addDeviceLog d c s).1)
        = mkLogEntry c :: (bucketOf d s).take 199)
    ∧ (∀ c : LogCall, (bucketOf d ((addDeviceLog d c s).1)).head?
        = some (mkLogEntry c)
        ∧ (bucketOf d ((addDeviceLog d c s).1)).length
            = min ((bucketOf d s).length + 1) 200)
    ∧ (∀ calls : List LogCall, (bucketOf d s).length ≤ 200 →
        (bucketOf d (foldAddDeviceLog d calls s)).length
          = min ((bucketOf d s).length + calls.length) 200)
    ∧ (∀ (e : LMLogEntry) (sys : List LMLogEntry),
        (lmSystemLogsUpdate e sys).head? = some e
        ∧ (lmSystemLogsUpdate e sys).length = min (sys.length + 1) 100
        ∧ (lmDeviceLogsUpdate e sys).length = min (sys.length + 1) 200) := by
  refine ⟨fun c => bucketOf_addDeviceLog s d hd c, fun c => ?_, ?_, ?_⟩
  · rw [bucketOf_addDeviceLog s d hd c]
    refine ⟨rfl, ?_⟩
    simp [List.length_take]
    omega
  · exact fun calls h => bucketOf_foldAddDeviceLog_length d hd calls s h
  · intro e sys
    refine ⟨rfl, ?_, ?_⟩ <;>
      simp [lmSystemLogsUpdate, lmDeviceLogsUpdate, List.length_take] <;> omega

/-- Witness for C6: appending 205 entries to an initially empty bucket
leaves exactly 200. -/
theorem C6_log_ring_buffers_witness :
    (bucketOf "gate1"
        (foldAddDeviceLog "gate1" (List.replicate 205 c6Call) initialState)).length
      = 200 := by
  have h := (C6_log_ring_buffers initialState "gate1" (by decide)).2.2.1
    (List.replicate 205 c6Call) (by decide)
  rw [h, List.length_replicate]
  norm_num [bucketOf, initialState, lookupA]

/-! ## Substring lemmas for the codec proofs -/

theorem mem_of_startsWithL {n h : List Char} (hs : startsWithL n h = true)
    {c : Char} (hcn : c ∈ n) : c ∈ h := by
  induction n generalizing h with
  | nil => simp at hcn
  | cons a n' ih =>
    match h with
    | [] => simp [startsWithL] at hs
    | b :: h' =>
      simp only [startsWithL, Bool.and_eq_true, beq_iff_eq] at hs
      obtain ⟨rfl, hs'⟩ := hs
      rcases List.mem_cons.mp hcn with rfl | hcn'
      · exact List.mem_cons_self _ _
      · exact List.mem_cons_of_mem _ (ih hs' hcn')

theorem mem_of_containsL {n h : List Char} (hc : containsL n h = true)
    {c : Char} (hcn : c ∈ n) : c ∈ h := by
  induction h with
  | nil =>
    rw [containsL, List.isEmpty_iff] at hc
    subst hc
    simp at hcn
  | cons d t ih =>
    rw [containsL, Bool.or_eq_true] at hc
    rcases hc with hc | hc
    · exact mem_of_startsWithL hc hcn
    · exact List.mem_cons_of_mem _ (ih hc)

theorem countP_le_of_startsWithL (p : Char → Bool) {n h : List Char}
    (hs : startsWithL n h = true) : n.countP p ≤ h.countP p := by
  induction n generalizing h with
  | nil => simp
  | cons a n' ih =>
    match h with
    | [] => simp [startsWithL] at hs
    | b :: h' =>
      simp only [startsWithL, Bool.and_eq_true, beq_iff_eq] at hs
      obtain ⟨rfl, hs'⟩ := hs
      simp only [List.countP_cons]
      have := ih hs'
      omega

theorem countP_le_of_containsL (p : Char → Bool) {n h : List Char}
    (hc : containsL n h = true) : n.countP p ≤ h.countP p := by
  induction h with
  | nil =>
    rw [containsL, List.isEmpty_iff] at hc
    subst hc
    rfl
  | cons d t ih =>
    rw [containsL, Bool.or_eq_true] at hc
    rcases hc with hc | hc
    · exact countP_le_of_startsWithL p hc
    · have := ih hc
      simp only [List.countP_cons]
      omega

theorem containsL_eq_false_of_not_mem {n h : List Char} {c : Char}
    (hcn : c ∈ n) (hch : c ∉ h) : containsL n h = false := by
  rcases Bool.eq_false_or_eq_true (containsL n h) with hb | hb
  · exact absurd (mem_of_containsL hb hcn) hch
  · exact hb

theorem startsWithL_self (l : List Char) : startsWithL l l = true := by
  induction l with
  | nil => rfl
  | cons a t ih => simp [startsWithL, ih]

theorem containsL_refl (l : List Char) : containsL l l = true := by
  match l with
  | [] => rfl
  | c :: t =>
    rw [containsL, startsWithL_self]
    rfl

theorem containsL_append_left {n : List Char} (pre : List Char) {h : List Char}
    (hc : containsL n h = true) : containsL n (pre ++ h) = true := by
  induction pre with
  | nil => simpa
  | cons x xs ih =>
    rw [List.cons_append, containsL, ih]
    simp

/-- C3: encoding an add-user command for password `"1234"`, serial
`"007"`, phone `"+61412345678"` and no time limits yields exactly
`"1234A007#+61412345678#"`, and classifying/describing that string
yields action `"User Management"`, category `user`, and details
containing (indeed equal to)
`"Added user +61412345678 at position 007"`. -/
theorem C3_add_user_end_to_end :
    encodeAddUserCommand "1234" "007" "+61412345678" "" "" = "1234A007#+61412345678#"
    ∧ (classifySMSCommand "1234A007#+61412345678#").1 = "User Management"
    ∧ (classifySMSCommand "1234A007#+61412345678#").2.2 = Category.user
    ∧ (classifySMSCommand "1234A007#+61412345678#").2.1
        = "Added user +61412345678 at position 007"
    ∧ containsL "Added user +61412345678 at position 007".toList
        (classifySMSCommand "1234A007#+61412345678#").2.1.toList = true := by
  refine ⟨?_, ?_, ?_, ?_, ?_⟩ <;> decide

theorem exists_four_chars {l : List Char} (h : l.length = 4) :
    ∃ a b c d, l = [a, b, c, d] := by
  rcases l with _ | ⟨a, _ | ⟨b, _ | ⟨c, _ | ⟨d, _ | ⟨e, t⟩⟩⟩⟩⟩ <;> simp at h
  exact ⟨a, b, c, d, rfl⟩

theorem exists_three_chars {l : List Char} (h : l.length = 3) :
    ∃ a b c, l = [a, b, c] := by
  rcases l with _ | ⟨a, _ | ⟨b, _ | ⟨c, _ | ⟨d, t⟩⟩⟩⟩ <;> simp at h
  exact ⟨a, b, c, rfl⟩

/-- C4: for every 4-digit numeric password `P` and 3-digit numeric
serial `S`, classifying the encoded remove-user command `P ++ "A" ++ S
++ "##"` yields action `"User Management"` and category `user`, the
serial appears in the produced details string, and the password appears
nowhere in the details string. -/
theorem C4_remove_user_decode (P S : String)
    (hP4 : P.toList.length = 4) (hPd : ∀ c ∈ P.toList, isDigitC c = true)
    (hS3 : S.toList.length = 3) (hSd : ∀ c ∈ S.toList, isDigitC c = true) :
    (classifySMSCommand (encodeDeleteUserCommand P S)).1 = "User Management"
    ∧ (classifySMSCommand (encodeDeleteUserCommand P S)).2.2 = Category.user
    ∧ containsL S.toList
        (classifySMSCommand (encodeDeleteUserCommand P S)).2.1.toList = true
    ∧ containsL P.toList
        (classifySMSCommand (encodeDeleteUserCommand P S)).2.1.toList = false := by
  obtain ⟨p1, p2, p3, p4, hPL⟩ := exists_four_chars hP4
  obtain ⟨s1, s2, s3, hSL⟩ := exists_three_chars hS3
  have hp1 : isDigitC p1 = true := hPd p1 (by rw [hPL]; simp)
  have hp2 : isDigitC p2 = true := hPd p2 (by rw [hPL]; simp)
  have hp3 : isDigitC p3 = true := hPd p3 (by rw [hPL]; simp)
  have hp4 : isDigitC p4 = true := hPd p4 (by rw [hPL]; simp)
  have hs1 : isDigitC s1 = true := hSd s1 (by rw [hSL]; simp)
  have hs2 : isDigitC s2 = true := hSd s2 (by rw [hSL]; simp)
  have hs3 : isDigitC s3 = true := hSd s3 (by rw [hSL]; simp)
  have hcmdT : (encodeDeleteUserCommand P S).toList
      = p1 :: p2 :: p3 :: p4 :: 'A' :: s1 :: s2 :: s3 :: '#' :: '#' :: [] := by
    simp [encodeDeleteUserCommand, String.toList, String.data_append]
    rw [show P.data = [p1, p2, p3, p4] from hPL, show S.data = [s1, s2, s3] from hSL]
    rfl
  have hchars : ∀ c ∈ (encodeDeleteUserCommand P S).toList,
      isDigitC c = true ∨ c = 'A' ∨ c = '#' := by
    rw [hcmdT]
    intro c hc
    simp only [List.mem_cons, List.not_mem_nil, or_false] at hc
    rcases hc with rfl | rfl | rfl | rfl | rfl | rfl | rfl | rfl | rfl | rfl
    · exact Or.inl hp1
    · exact Or.inl hp2
    · exact Or.inl hp3
    · exact Or.inl hp4
    · exact Or.inr (Or.inl rfl)
    · exact Or.inl hs1
    · exact Or.inl hs2
    · exact Or.inl hs3
    · exact Or.inr (Or.inr rfl)
    · exact Or.inr (Or.inr rfl)
  have hnoC : containsL ['C', 'C'] (encodeDeleteUserCommand P S).toList = false :=
    containsL_eq_false_of_not_mem (c := 'C') (by simp)
      (fun hmem => by rcases hchars 'C' hmem with h | h | h <;> exact absurd h (by decide))
  have hnoD : containsL ['D', 'D'] (encodeDeleteUserCommand P S).toList = false :=
    containsL_eq_false_of_not_mem (c := 'D') (by simp)
      (fun hmem => by rcases hchars 'D' hmem with h | h | h <;> exact absurd h (by decide))
  have hnoP : containsL ['P'] (encodeDeleteUserCommand P S).toList = false :=
    containsL_eq_false_of_not_mem (c := 'P') (by simp)
      (fun hmem => by rcases hchars 'P' hmem with h | h | h <;> exact absurd h (by decide))
  have hnoE : containsL ['E', 'E'] (encodeDeleteUserCommand P S).toList = false :=
    containsL_eq_false_of_not_mem (c := 'E') (by simp)
      (fun hmem => by rcases hchars 'E' hmem with h | h | h <;> exact absurd h (by decide))
  have hnoT : containsL ['T', 'E', 'L'] (encodeDeleteUserCommand P S).toList = false :=
    containsL_eq_false_of_not_mem (show 'T' ∈ ['T', 'E', 'L'] by simp)
      (fun hmem => by rcases hchars 'T' hmem with h | h | h <;> exact absurd h (by decide))
  have hnoALL : containsL ['A', 'L', 'L'] (encodeDeleteUserCommand P S).toList = false :=
    containsL_eq_false_of_not_mem (show 'L' ∈ ['A', 'L', 'L'] by simp)
      (fun hmem => by rcases hchars 'L' hmem with h | h | h <;> exact absurd h (by decide))
  have hnoAUT : containsL ['A', 'U', 'T'] (encodeDeleteUserCommand P S).toList = false :=
    containsL_eq_false_of_not_mem (show 'U' ∈ ['A', 'U', 'T'] by simp)
      (fun hmem => by rcases hchars 'U' hmem with h | h | h <;> exact absurd h (by decide))
  have hA : containsL ['A'] (encodeDeleteUserCommand P S).toList = true := by
    rw [hcmdT,
      show (p1 :: p2 :: p3 :: p4 :: 'A' :: s1 :: s2 :: s3 :: '#' :: '#' :: [])
        = [p1, p2, p3, p4] ++ ('A' :: s1 :: s2 :: s3 :: '#' :: '#' :: []) from rfl]
    apply containsL_append_left
    rw [containsL]
    simp [startsWithL]
  have h2H : containsL ['#', '#'] (encodeDeleteUserCommand P S).toList = true := by
    rw [hcmdT,
      show (p1 :: p2 :: p3 :: p4 :: 'A' :: s1 :: s2 :: s3 :: '#' :: '#' :: [])
        = [p1, p2, p3, p4, 'A', s1, s2, s3] ++ ['#', '#'] from rfl]
    exact containsL_append_left _ (containsL_refl _)
  have hremHere :
      matchRemoveHere (p1 :: p2 :: p3 :: p4 :: 'A' :: s1 :: s2 :: s3 :: '#' :: '#' :: [])
        = some [s1, s2, s3] := by
    simp [matchRemoveHere, parseDigits, hp1, hp2, hp3, hp4, hs1, hs2, hs3]
  have hrem : matchRemove (encodeDeleteUserCommand P S).toList = some [s1, s2, s3] := by
    rw [hcmdT, matchRemove, hremHere]
  have hclass : classifySMSCommand (encodeDeleteUserCommand P S)
      = ("User Management",
          "Removed authorized user from position " ++ String.mk [s1, s2, s3],
          Category.user) := by
    simp only [classifySMSCommand]
    simp only [hnoC, hnoD, hnoP, hnoE, hnoT, hA, hnoALL, hnoAUT, h2H, hrem]
    simp
  rw [hclass]
  refine ⟨rfl, ?_, ?_, ?_⟩
  · rfl
  · rw [hSL]
    have hdet : ("Removed authorized user from position "
        ++ String.mk [s1, s2, s3]).toList
        = "Removed authorized user from position ".toList ++ [s1, s2, s3] := by
      simp [String.toList, String.data_append]
    rw [hdet]
    exact containsL_append_left _ (containsL_refl _)
  · have hdet : ("Removed authorized user from position "
        ++ String.mk [s1, s2, s3]).toList
        = "Removed authorized user from position ".toList ++ [s1, s2, s3] := by
      simp [String.toList, String.data_append]
    have hcp : P.toList.countP isDigitC = 4 := by
      rw [List.countP_eq_length.mpr hPd, hP4]
    have hcd : (("Removed authorized user from position "
        ++ String.mk [s1, s2, s3]).toList).countP isDigitC = 3 := by
      rw [hdet, List.countP_append]
      have h0 : ("Removed authorized user from position ".toList).countP isDigitC
          = 0 := by decide
      have h3 : ([s1, s2, s3].countP isDigitC) = 3 := by
        simp [List.countP_cons, hs1, hs2, hs3]
      omega
    rcases Bool.eq_false_or_eq_true
        (containsL P.toList (("Removed authorized user from position "
          ++ String.mk [s1, s2, s3]).toList)) with hb | hb
    · have := countP_le_of_containsL isDigitC hb
      rw [hcp, hcd] at this
      omega
    · exact hb

/-- Witness for C4 at the concrete password `"1234"` and serial `"007"`. -/
theorem C4_remove_user_decode_witness :
    (classifySMSCommand (encodeDeleteUserCommand "1234" "007")).1 = "User Management"
    ∧ containsL "007".toList
        (classifySMSCommand (encodeDeleteUserCommand "1234" "007")).2.1.toList = true
    ∧ containsL "1234".toList
        (classifySMSCommand (encodeDeleteUserCommand "1234" "007")).2.1.toList = false := by
  have h := C4_remove_user_decode "1234" "007" (by decide) (by decide)
    (by decide) (by decide)
  exact ⟨h.1, h.2.2.1, h.2.2.2⟩

/-! ## Lemmas for the restore merge -/

theorem lookupA_append {α : Type} (k : String) (a b : List (String × α)) :
    lookupA k (a ++ b)
      = match lookupA k a with
        | some v => some v
        | none => lookupA k b := by
  induction a with
  | nil => simp [lookupA]
  | cons p rest ih =>
    obtain ⟨k', v'⟩ := p
    by_cases h : k' = k
    · simp [lookupA, h]
    · simp [lookupA, h, ih]

theorem lookupA_eq_none_of_not_mem {α : Type} {k : String}
    {l : List (String × α)} (h : k ∉ l.map Prod.fst) : lookupA k l = none := by
  induction l with
  | nil => rfl
  | cons p rest ih =>
    obtain ⟨k', v'⟩ := p
    simp only [List.map_cons, List.mem_cons] at h
    push_neg at h
    rw [lookupA, if_neg (by exact fun hh => h.1 hh.symm)]
    exact ih h.2

theorem lookupA_setA_ne {α : Type} {k' k : String} (h : k ≠ k') (v : α)
    (l : List (String × α)) : lookupA k' (setA k v l) = lookupA k' l := by
  induction l with
  | nil => simp [setA, lookupA, h]
  | cons p rest ih =>
    obtain ⟨k0, v0⟩ := p
    by_cases h0 : k0 = k
    · subst h0
      simp [setA, lookupA, h, fun hh : k' = k0 => h hh.symm]
    · simp only [setA, if_neg h0]
      by_cases h1 : k0 = k'
      · simp [lookupA, h1]
      · simp [lookupA, h1, ih]

theorem lookupA_mergeLogsStep_ne (acc : List (String × List DSLogEntry))
    (p : String × List DSLogEntry) (k : String) (h : p.1 ≠ k) :
    lookupA k (mergeLogsStep acc p) = lookupA k acc := by
  rw [mergeLogsStep]
  rcases hl : lookupA p.1 acc with _ | bk
  · rw [lookupA_append]
    rcases lookupA k acc with _ | v <;> simp [lookupA, h]
  · exact lookupA_setA_ne h _ acc

theorem lookupA_mergeLogsStep_self (acc : List (String × List DSLogEntry))
    (p : String × List DSLogEntry) :
    lookupA p.1 (mergeLogsStep acc p)
      = some (match lookupA p.1 acc with
              | none => p.2
              | some bk =>
                (bk.filter (fun e => !(p.2.any (fun x => x.id == e.id)))) ++ p.2) := by
  rw [mergeLogsStep]
  rcases hl : lookupA p.1 acc with _ | bk
  · rw [lookupA_append, hl, lookupA]
    simp
  · exact lookupA_setA_self _ _ _

theorem lookupA_mergeLogs (k : String)
    (existingLogs : List (String × List DSLogEntry))
    (hex : (existingLogs.map Prod.fst).Nodup) :
    ∀ backupLogs : List (String × List DSLogEntry),
      lookupA k (mergeLogs backupLogs existingLogs)
        = match lookupA k existingLogs with
          | none => lookupA k backupLogs
          | some ex =>
            match lookupA k backupLogs with
            | none => some ex
            | some bk =>
              some ((bk.filter (fun e => !(ex.any (fun x => x.id == e.id)))) ++ ex) := by
  induction existingLogs with
  | nil => intro b; simp [mergeLogs, lookupA]
  | cons p rest ih =>
    intro b
    simp only [List.map_cons, List.nodup_cons] at hex
    obtain ⟨hp, hrest⟩ := hex
    have hstep : mergeLogs b (p :: rest) = mergeLogs (mergeLogsStep b p) rest := rfl
    rw [hstep, ih hrest]
    by_cases hk : p.1 = k
    · subst hk
      have hnone : lookupA p.1 rest = none :=
        lookupA_eq_none_of_not_mem hp
      rw [hnone]
      have hcons : lookupA p.1 (p :: rest) = some p.2 := by
        obtain ⟨k0, v0⟩ := p
        simp [lookupA]
      rw [hcons, lookupA_mergeLogsStep_self b p]
      cases hb : lookupA p.1 b <;> simp
    · have hcons : lookupA k (p :: rest) = lookupA k rest := by
        obtain ⟨k0, v0⟩ := p
        simp only at hk
        simp [lookupA, hk]
      rw [hcons, lookupA_mergeLogsStep_ne b p k hk]

/-- C2: restoring onto a destination holding a (non-empty) primary
application-data document, from a backup payload that also contains
that document, merges the two: the resulting device list is the
destination's devices followed by exactly those backup devices whose id
does not collide with a destination device (destination wins on
collision — the backup's duplicate is skipped, so the destination
device keeps its name); every destination device survives; every
backup device with a fresh id is present; and each per-device log
bucket is the union by log-entry id of the two sides' buckets, keeping
the destination's copy of colliding entries and both sides' unique
entries. -/
theorem C2_restore_merge (backupAppData existingAppData : AppData)
    (hex : (existingAppData.logs.map Prod.fst).Nodup) :
    ((mergeAppData backupAppData existingAppData).devices
        = existingAppData.devices
          ++ backupAppData.devices.filter
              (fun b => !(existingAppData.devices.any (fun d => d.id == b.id))))
    ∧ (∀ d ∈ existingAppData.devices,
        d ∈ (mergeAppData backupAppData existingAppData).devices)
    ∧ (∀ b ∈ backupAppData.devices,
        (∀ d ∈ existingAppData.devices, d.id ≠ b.id) →
          b ∈ (mergeAppData backupAppData existingAppData).devices)
    ∧ (∀ (k : String) (e : DSLogEntry),
        e ∈ bucketL k (mergeAppData backupAppData existingAppData).logs
          ↔ (e ∈ bucketL k existingAppData.logs
             ∨ (e ∈ bucketL k backupAppData.logs
                ∧ ∀ x ∈ bucketL k existingAppData.logs, x.id ≠ e.id))) := by
  refine ⟨rfl, ?_, ?_, ?_⟩
  · intro d hd
    exact List.mem_append_left _ hd
  · intro b hb hno
    refine List.mem_append_right _ ?_
    rw [List.mem_filter]
    refine ⟨hb, ?_⟩
    have : existingAppData.devices.any (fun d => d.id == b.id) = false := by
      rw [List.any_eq_false]
      intro d hd
      simpa using hno d hd
    simp [this]
  · intro k e
    have hml : (mergeAppData backupAppData existingAppData).logs
        = mergeLogs backupAppData.logs existingAppData.logs := rfl
    rw [bucketL, hml, lookupA_mergeLogs k existingAppData.logs hex backupAppData.logs]
    rcases hle : lookupA k existingAppData.logs with _ | ex
    · rcases hlb : lookupA k backupAppData.logs with _ | bk
      · simp [bucketL, hle, hlb]
      · simp [bucketL, hle, hlb]
    · rcases hlb : lookupA k backupAppData.logs with _ | bk
      · simp [bucketL, hle, hlb]
      · simp only [bucketL, hle, hlb, Option.getD_some, List.mem_append,
          List.mem_filter, Bool.not_eq_true', List.any_eq_false]
        constructor
        · rintro (⟨hbk, hnot⟩ | hex')
          · exact Or.inr ⟨hbk, fun x hx => by simpa using hnot x hx⟩
          · exact Or.inl hex'
        · rintro (hex' | ⟨hbk, hnot⟩)
          · exact Or.inr hex'
          · exact Or.inl ⟨hbk, fun x hx => by simpa using hnot x hx⟩

/-- Witness for C2 at the concrete `A` / `A'` / `B` scenario: after the
merge, device `A` (with its original name) is present and device `B` is
present, while the backup's `A'` only differs from `A` in its name. -/
theorem C2_restore_merge_witness :
    c2DevA ∈ (mergeAppData c2Backup c2Existing).devices
    ∧ c2DevB ∈ (mergeAppData c2Backup c2Existing).devices
    ∧ c2DevA.name = "Old Name" ∧ c2DevA'.id = c2DevA.id
    ∧ c2DevA'.name ≠ c2DevA.name := by
  have h := C2_restore_merge c2Backup c2Existing (by decide)
  exact ⟨h.2.1 c2DevA (by decide), h.2.2.1 c2DevB (by decide) (by decide),
    rfl, rfl, by decide⟩

/-- C5: the restore operation rejects empty input with an error, and it
reports overall success exactly when at least one key was written: any
successful return carries a written-key count of at least one — a
zero-key restore surfaces as the hard failure
`"Failed to restore any items"`, never as success. -/
theorem C5_restore_success_iff_writes (input : String) (storage : Storage) :
    (input = "" →
        restoreFromBackup input storage
          = Except.error "Backup file appears to be empty")
    ∧ (∀ (st : Storage) (n : Nat),
        restoreFromBackup input storage = Except.ok (st, n) → 1 ≤ n)
    ∧ (∀ w : Storage × Nat, 1 ≤ w.2 → finishRestore w = Except.ok (w.1, w.2)) := by
  refine ⟨?_, ?_, ?_⟩
  · intro h
    rw [restoreFromBackup, if_pos h]
  · intro st n h
    have hfin : ∀ (w : Storage × Nat), finishRestore w = Except.ok (st, n) → 1 ≤ n := by
      intro w hw
      rw [finishRestore] at hw
      split at hw
      · exact absurd hw (by simp)
      · simp only [Except.ok.injEq, Prod.mk.injEq] at hw
        obtain ⟨-, h2⟩ := hw
        omega
    by_cases hin : input = ""
    · rw [restoreFromBackup, if_pos hin] at h
      exact absurd h (by simp)
    · rw [restoreFromBackup, if_neg hin] at h
      split at h
      · exact absurd h (by simp)
      · split at h
        · exact absurd h (by simp)
        · exact hfin _ h
  · intro w hw
    rw [finishRestore, if_neg (by omega)]

/-- Witness for C5: empty input errors; a one-key backup restores with
a write count of one, which the theorem bounds from below. -/
theorem C5_restore_success_iff_writes_witness :
    restoreFromBackup "" [] = Except.error "Backup file appears to be empty"
    ∧ restoreFromBackup "\x7b\"k\":1\x7d" []
        = Except.ok ([("k", JValue.jnum 1)], 1)
    ∧ 1 ≤ 1
    ∧ finishRestore ([("k", JValue.jnum 1)], 1)
        = Except.ok ([("k", JValue.jnum 1)], 1) := by
  have hok : restoreFromBackup "\x7b\"k\":1\x7d" []
      = Except.ok ([("k", JValue.jnum 1)], 1) := by rfl
  exact ⟨(C5_restore_success_iff_writes "" []).1 rfl, hok,
    (C5_restore_success_iff_writes "\x7b\"k\":1\x7d" []).2.1
      [("k", JValue.jnum 1)] 1 hok,
    (C5_restore_success_iff_writes "" []).2.2 ([("k", JValue.jnum 1)], 1)
      (by decide)⟩
